import Mathlib

/-!
Verification of the chara front-end: a shallow embedding of the scanner and
of the stack-effect type inferencers (`AbstractInterpreter` in
`abstract_interpreter.rs` and `TypeChecker` in `typechecker.rs`), with
theorems checking the natural-language specification against the code.

Machine integers (`usize` counters, indices) are modelled as `Nat`; the
source never relies on wraparound.  Rust routines that can abort through a
panicking macro are modelled with an explicit `panicked` outcome.
-/

namespace Chara

/-- A lexeme with its source position, mirroring `scanner.rs` `Token`. -/
structure Token where
  value : String
  line : Nat
  col : Nat
  deriving DecidableEq

/-- Modelled from the spec: `Token::unknown()` is referenced by
`abstract_interpreter.rs` but its definition is not under `src/`; the spec
says errors raised where no meaningful position exists carry "a synthetic
unknown token".  No claim inspects its concrete fields. -/
def Token.unknown : Token := { value := "", line := 0, col := 0 }

/-- The internal type language, mirroring `typechecker.rs` `Type`. -/
inductive Ty where
  | Param (n : Nat)
  | Int
  | Bool
  | String
  | Function (ins : List Ty) (outs : List Ty)

mutual

/-- Structural equality on `Ty`, mirroring the derived `PartialEq` of
`typechecker.rs` `Type`: variants must coincide and fields (vectors
elementwise) must compare equal. -/
def tyBeq : Ty → Ty → Bool
  | .Param m, .Param n => m == n
  | .Int, .Int => true
  | .Bool, .Bool => true
  | .String, .String => true
  | .Function i o, .Function i2 o2 => tyBeqs i i2 && tyBeqs o o2
  | _, _ => false

/-- Elementwise structural equality of type vectors (derived `PartialEq`
on `Vec<Type>`). -/
def tyBeqs : List Ty → List Ty → Bool
  | [], [] => true
  | a :: as, b :: bs => tyBeq a b && tyBeqs as bs
  | _, _ => false

end

mutual

/-- The boolean structural equality decides propositional equality. -/
theorem tyBeq_iff : ∀ (a b : Ty), tyBeq a b = true ↔ a = b
  | .Param m, b => by cases b <;> simp [tyBeq]
  | .Int, b => by cases b <;> simp [tyBeq]
  | .Bool, b => by cases b <;> simp [tyBeq]
  | .String, b => by cases b <;> simp [tyBeq]
  | .Function i o, b => by
      cases b <;> simp [tyBeq]
      case Function i2 o2 => rw [tyBeqs_iff i i2, tyBeqs_iff o o2]

/-- Vector version of `tyBeq_iff`. -/
theorem tyBeqs_iff : ∀ (as bs : List Ty), tyBeqs as bs = true ↔ as = bs
  | [], bs => by cases bs <;> simp [tyBeqs]
  | a :: as, bs => by
      cases bs <;> simp [tyBeqs]
      case cons b bs => rw [tyBeq_iff a b, tyBeqs_iff as bs]

end

instance : DecidableEq Ty := fun a b => decidable_of_iff _ (tyBeq_iff a b)

/-- Literal payloads, mirroring `parser.rs` `Value`. -/
inductive Value where
  | Integer (i : Int)
  | Boolean (b : Bool)
  | String (s : String)
  deriving DecidableEq

/-- Syntactic factors, mirroring `parser.rs` `Factor`. -/
inductive Factor where
  | Dup (t : Token)
  | Drop (t : Token)
  | Quote (t : Token)
  | Call (t : Token)
  | Cat (t : Token)
  | Swap (t : Token)
  | Ifte (t : Token)
  | Integer (v : Value) (t : Token)
  | Boolean (v : Value) (t : Token)
  | String (v : Value) (t : Token)
  | Identifier (name : String) (t : Token)
  | Quotation (fs : List Factor)

/-- Error kinds, mirroring `error.rs` `Error`. -/
inductive Error where
  | ParseError (msg : String) (tok : Token)
  | TypeError (msg : String) (tok : Token)
  | UnexpectedEndOfFile (msg : String)
  | UnexpectedToken (expected : String) (actual : Token)
  | EndOfTerm
  deriving DecidableEq

/-- Result of a Rust routine that can return `Ok`, return `Err`, or abort
through a panicking macro (`unimplemented` and the "Expected function"
abort in `call_as_function` are modelled as `panicked`). -/
inductive Outcome (α : Type) where
  | ok (a : α)
  | err (e : Error)
  | panicked (msg : String)
  deriving DecidableEq

mutual

/-- Rendering of `Ty` that mirrors the derived `Debug` format used by
`format!("Expected X but got Y", ..)` in `call_as_function`. -/
def fmtTy : Ty → String
  | .Param n => "Param(" ++ toString n ++ ")"
  | .Int => "Int"
  | .Bool => "Bool"
  | .String => "String"
  | .Function i o => "Function([" ++ fmtTysGo i ++ "], [" ++ fmtTysGo o ++ "])"

/-- Comma-separated body of the `Debug` rendering of a `Vec<Type>`. -/
def fmtTysGo : List Ty → String
  | [] => ""
  | [t] => fmtTy t
  | t :: rest => fmtTy t ++ ", " ++ fmtTysGo rest

end

/-- Debug rendering of a `Vec<Type>`. -/
def fmtTys (ts : List Ty) : String :=
  "[" ++ fmtTysGo ts ++ "]"

/-! ## The abstract interpreter (`abstract_interpreter.rs`) -/

/-- State of `AbstractInterpreter`: the lazily discovered input stack, the
current output stack (`Vec` top at the list end), and the parameter
counter. -/
structure St where
  in_stack : List Ty
  out_stack : List Ty
  param_count : Nat
  deriving DecidableEq

/-- `AbstractInterpreter::new()`. -/
def initSt : St := { in_stack := [], out_stack := [], param_count := 0 }

/-- `AbstractInterpreter::new_param`: returns `Param(param_count)` and
increments the counter. -/
def newParam (s : St) : Ty × St :=
  (Ty.Param s.param_count, { s with param_count := s.param_count + 1 })

/-- `AbstractInterpreter::pop`: take the last element of `out_stack`, or,
when it is empty, mint a fresh parameter and append it to `in_stack`. -/
def pop (s : St) : Ty × St :=
  match s.out_stack.getLast? with
  | none =>
      let (p, s1) := newParam s
      (p, { s1 with in_stack := s1.in_stack ++ [p] })
  | some t => (t, { s with out_stack := s.out_stack.dropLast })

/-- `AbstractInterpreter::push`: append to `out_stack`. -/
def push (t : Ty) (s : St) : St :=
  { s with out_stack := s.out_stack ++ [t] }

/-- The learned map of `call_as_function` (`HashMap<usize, Type>`). -/
def Learned : Type := Nat → Option Ty

/-- The empty learned map. -/
def emptyLearned : Learned := fun _ => none

/-- `HashMap::insert`: later insertions overwrite earlier ones. -/
def lrnInsert (m : Learned) (p : Nat) (t : Ty) : Learned :=
  fun q => if q = p then some t else m q

/-- The input-matching loop of `call_as_function` (lines 97-109): the
argument list is the callee's expected inputs already reversed, each
element is matched against a popped actual value. -/
def callInputs : List Ty → Learned → St → Outcome (Learned × St)
  | [], learned, s => .ok (learned, s)
  | te :: rest, learned, s =>
      let (ta, s1) := pop s
      match te with
      | .Param p => callInputs rest (lrnInsert learned p ta) s1
      | _ =>
          if tyBeq te ta then
            callInputs rest learned s1
          else
            .err (.TypeError ("Expected " ++ fmtTy te ++ " but got " ++ fmtTy ta)
              Token.unknown)

/-- `AbstractInterpreter::substitute_learned` (lines 137-152): rewrite the
top-level `Param` elements of a type vector through the learned map,
dropping the ones with no binding. -/
def substituteLearned (learned : Learned) : List Ty → List Ty
  | [] => []
  | .Param p :: rest =>
      (match learned p with
       | some t => t :: substituteLearned learned rest
       | none => substituteLearned learned rest)
  | t :: rest => t :: substituteLearned learned rest

/-- The output-pushing loop of `call_as_function` (lines 110-126). -/
def callOutputs (learned : Learned) : List Ty → St → St
  | [], s => s
  | .Param p :: rest, s =>
      (match learned p with
       | some t => callOutputs learned rest (push t s)
       | none => callOutputs learned rest s)
  | .Function tIn tOut :: rest, s =>
      callOutputs learned rest
        (push (.Function (substituteLearned learned tIn) (substituteLearned learned tOut)) s)
  | t :: rest, s => callOutputs learned rest (push t s)

/-- `AbstractInterpreter::call_as_function`. -/
def callAsFunction (a : Ty) (s : St) : Outcome St :=
  match a with
  | .Function tIn tOut =>
      (match callInputs tIn.reverse emptyLearned s with
       | .ok (learned, s1) => .ok (callOutputs learned tOut s1)
       | .err e => .err e
       | .panicked m => .panicked m)
  | .Param _ => .ok s
  | _ => .panicked "Expected function"

mutual

/-- `AbstractInterpreter::interpret_factor`. -/
def interpretFactor (s : St) : Factor → Outcome St
  | .Dup _ =>
      let (a, s1) := pop s
      .ok (push a (push a s1))
  | .Drop _ =>
      let (_, s1) := pop s
      .ok s1
  | .Quote _ =>
      let (a, s1) := pop s
      .ok (push (.Function [] [a]) s1)
  | .Call _ =>
      let (a, s1) := pop s
      callAsFunction a s1
  | .Cat _ => .panicked "not implemented"
  | .Swap _ => .panicked "not implemented"
  | .Ifte _ => .panicked "not implemented"
  | .Integer _ _ => .ok (push .Int s)
  | .Boolean _ _ => .ok (push .Bool s)
  | .String _ _ => .ok (push .String s)
  | .Identifier _ _ => .panicked "not implemented"
  | .Quotation fs =>
      (match interpretTerm initSt fs with
       | .ok s1 => .ok (push (.Function s1.in_stack s1.out_stack) s)
       | .err e => .err e
       | .panicked m => .panicked m)

/-- The factor loop of `AbstractInterpreter::interpret`. -/
def interpretTerm (s : St) : List Factor → Outcome St
  | [] => .ok s
  | f :: fs =>
      (match interpretFactor s f with
       | .ok s1 => interpretTerm s1 fs
       | .err e => .err e
       | .panicked m => .panicked m)

end

/-- `AbstractInterpreter::interpret` run on a fresh interpreter: process
the factors, then return `Function(in_stack, out_stack)`. -/
def interpret (fs : List Factor) : Outcome Ty :=
  match interpretTerm initSt fs with
  | .ok s => .ok (.Function s.in_stack s.out_stack)
  | .err e => .err e
  | .panicked m => .panicked m

/-! ## The type checker (`typechecker.rs`) -/

/-- The builtin environment set up by `TypeChecker::new`. -/
def defaultEnv : String → Option Ty := fun n =>
  if n = "+" then some (.Function [.Int, .Int] [.Int])
  else if n = "-" then some (.Function [.Int, .Int] [.Int])
  else if n = "*" then some (.Function [.Int, .Int] [.Int])
  else if n = "/" then some (.Function [.Int, .Int] [.Int])
  else if n = "<" then some (.Function [.Int, .Int] [.Bool])
  else if n = ">" then some (.Function [.Int, .Int] [.Bool])
  else if n = "=" then some (.Function [.Int, .Int] [.Bool])
  else if n = "not" then some (.Function [.Bool] [.Bool])
  else if n = "and" then some (.Function [.Bool, .Bool] [.Bool])
  else if n = "or" then some (.Function [.Bool, .Bool] [.Bool])
  else none

/-- The in-place rewrite of `t_out` in `check_term` (lines 111-118): every
top-level `Param(n_expected)` becomes `Param(n_actual)`. -/
def renameParam (ne na : Nat) (ts : List Ty) : List Ty :=
  ts.map fun el =>
    match el with
    | .Param n => if n = ne then .Param na else el
    | _ => el

/-- The input-matching loop of the `Function` arm of `check_term`
(lines 104-122): the argument list is the factor's expected inputs already
reversed; an empty out-stack collects the expected input, otherwise the
actual top is popped and parameter-to-parameter matches rename `t_out`. -/
def applyEffectRev (inS outS tOut : List Ty) : List Ty → List Ty × List Ty × List Ty
  | [] => (inS, outS, tOut)
  | te :: rest =>
      match outS.getLast? with
      | none => applyEffectRev (inS ++ [te]) outS tOut rest
      | some ta =>
          let outS1 := outS.dropLast
          let tOut1 :=
            match te, ta with
            | .Param ne, .Param na => renameParam ne na tOut
            | _, _ => tOut
          applyEffectRev inS outS1 tOut1 rest

mutual

/-- `TypeChecker::check_factor`: the per-factor stack effect, with the
parameter counter threaded through (`Call` and `Cat` are unimplemented in
the source and abort). -/
def checkFactor (env : String → Option Ty) (pc : Nat) : Factor → Outcome (Ty × Nat)
  | .Dup _ => .ok (.Function [.Param pc] [.Param pc, .Param pc], pc + 1)
  | .Drop _ => .ok (.Function [.Param pc] [], pc + 1)
  | .Quote _ => .ok (.Function [.Param pc] [.Function [] [.Param pc]], pc + 1)
  | .Call _ => .panicked "not implemented"
  | .Cat _ => .panicked "not implemented"
  | .Swap _ =>
      .ok (.Function [.Param pc, .Param (pc + 1)] [.Param (pc + 1), .Param pc], pc + 2)
  | .Ifte _ =>
      .ok (.Function
        [.Function [.Param pc] [.Bool],
         .Function [.Bool] [.Param (pc + 1)],
         .Function [.Bool] [.Param (pc + 1)]]
        [.Param (pc + 1)], pc + 2)
  | .Integer _ _ => .ok (.Function [] [.Int], pc)
  | .Boolean _ _ => .ok (.Function [] [.Bool], pc)
  | .String _ _ => .ok (.Function [] [.String], pc)
  | .Identifier name tok =>
      (match env name with
       | none => .err (.TypeError ("Unknown identifier " ++ name) tok)
       | some t => .ok (t, pc))
  | .Quotation term => checkTermGo env pc [] [] term

/-- The factor loop of `TypeChecker::check_term`, carrying `in_stack` and
`out_stack`; ground results and bare parameters are pushed, function
effects are applied through `applyEffectRev`. -/
def checkTermGo (env : String → Option Ty) (pc : Nat) (inS outS : List Ty) :
    List Factor → Outcome (Ty × Nat)
  | [] => .ok (.Function inS outS, pc)
  | f :: fs =>
      (match checkFactor env pc f with
       | .ok (t, pc1) =>
           (match t with
            | .Function tIn tOut =>
                let r := applyEffectRev inS outS tOut tIn.reverse
                checkTermGo env pc1 r.1 (r.2.1 ++ r.2.2) fs
            | t => checkTermGo env pc1 inS (outS ++ [t]) fs)
       | .err e => .err e
       | .panicked m => .panicked m)

end

/-- `TypeChecker::check_term`: fresh `in_stack`/`out_stack`, shared
environment and parameter counter. -/
def checkTerm (env : String → Option Ty) (pc : Nat) (fs : List Factor) :
    Outcome (Ty × Nat) :=
  checkTermGo env pc [] [] fs

/-! ## The scanner (`scanner.rs`) -/

instance {ε α : Type} [DecidableEq ε] [DecidableEq α] : DecidableEq (Except ε α) :=
  fun a b =>
    match a, b with
    | .ok x, .ok y => decidable_of_iff (x = y) (by simp)
    | .error x, .error y => decidable_of_iff (x = y) (by simp)
    | .ok _, .error _ => isFalse (by simp)
    | .error _, .ok _ => isFalse (by simp)

/-- Whitespace characters of the scanner. -/
def isWs (c : Char) : Bool :=
  c = ' ' || c = '\t' || c = '\r' || c = '\n'

/-- The punctuation characters that are always tokens by themselves. -/
def isPunct (c : Char) : Bool :=
  c = '{' || c = '}' || c = '(' || c = ')' || c = '[' || c = ']' ||
  c = '.' || c = ',' || c = ';' || c = ':'

/-- The slice `string[a..b]` of the source (char-indexed; the source code
indexes by bytes, which coincides on the ASCII inputs the claims use). -/
def strSlice (src : List Char) (a b : Nat) : String :=
  String.mk ((src.drop a).take (b - a))

/-- The slice `string[a..]` of the source. -/
def strSliceFrom (src : List Char) (a : Nat) : String :=
  String.mk (src.drop a)

mutual

/-- The main loop of `scan` (lines 17-99), recursing over the remaining
characters: `i` is the index of the head of `rest`, and `line`, `col`,
`tokenSize`, `tokenStart` and `acc` mirror the loop state.  On exhaustion
the pending token, if any, is flushed with the *current* `col`. -/
def scanGo (src : List Char) : List Char → Nat → Nat → Nat → Nat → Nat →
    List Token → Except Error (List Token)
  | [], _, line, col, tokenSize, tokenStart, acc =>
      if tokenSize > 0 then
        .ok (acc ++ [⟨strSliceFrom src tokenStart, line, col⟩])
      else .ok acc
  | c :: rest, i, line, col, tokenSize, tokenStart, acc =>
      if isWs c then
        let acc1 :=
          if tokenSize > 0 then
            acc ++ [⟨strSlice src tokenStart i, line, col - tokenSize⟩]
          else acc
        if c = '\n' then scanGo src rest (i + 1) (line + 1) 1 0 (i + 1) acc1
        else scanGo src rest (i + 1) line (col + 1) 0 (i + 1) acc1
      else if isPunct c then
        let acc1 :=
          if tokenSize > 0 then
            acc ++ [⟨strSlice src tokenStart i, line, col - tokenSize⟩]
          else acc
        scanGo src rest (i + 1) line col 0 (i + 1)
          (acc1 ++ [⟨strSlice src i (i + 1), line, col⟩])
      else if c = '"' then
        scanStr src rest (i + 1) line (col + 1) (tokenSize + 1) tokenStart acc i
      else
        scanGo src rest (i + 1) line (col + 1) (tokenSize + 1) tokenStart acc

/-- The inner string loop of `scan` (lines 53-86): `qi` is the index of
the opening quote; each consumed character first bumps `col` and
`tokenSize`, a closing quote emits the token and resumes the main loop, a
raw newline is a fatal parse error, a backslash additionally skips the
next character, and end of input inside the string is a parse error whose
token value ends at the opening quote. -/
def scanStr (src : List Char) : List Char → Nat → Nat → Nat → Nat → Nat →
    List Token → Nat → Except Error (List Token)
  | [], _, line, col, tokenSize, tokenStart, acc, qi =>
      if tokenSize > 0 then
        .error (.ParseError "Unterminated string" ⟨strSlice src tokenStart qi, line, col⟩)
      else
        -- the inner loop only resets `tokenSize` through the closing-quote
        -- break, so reaching end of input with `tokenSize = 0` means the
        -- outer loop also ends with no pending token
        .ok acc
  | c :: rest, i, line, col, tokenSize, tokenStart, acc, qi =>
      if c = '"' then
        scanGo src rest (i + 1) line (col + 1) 0 tokenStart
          (acc ++ [⟨strSlice src tokenStart (i + 1), line, (col + 1) - (tokenSize + 1)⟩])
      else if c = '\n' then
        .error (.ParseError "Unterminated string" ⟨strSlice src tokenStart i, line, col + 1⟩)
      else if c = '\\' then
        (match rest with
         | [] => scanStr src [] (i + 1) line (col + 2) (tokenSize + 2) tokenStart acc qi
         | _ :: rest2 => scanStr src rest2 (i + 2) line (col + 2) (tokenSize + 2) tokenStart acc qi)
      else scanStr src rest (i + 1) line (col + 1) (tokenSize + 1) tokenStart acc qi

end

/-- `scan`: run the main loop on the full source with 1-based line and
column counters. -/
def scan (s : String) : Except Error (List Token) :=
  scanGo s.data s.data 0 1 1 0 0 []

/-! ## Predicates used to state the claims -/

/-- Whether a type is a bare `Param`. -/
def tyIsParam : Ty → Bool
  | .Param _ => true
  | _ => false

/-- Whether a type is a `Function`. -/
def tyIsFunction : Ty → Bool
  | .Function _ _ => true
  | _ => false

/-- Whether an outcome is a returned `TypeError`. -/
def Outcome.isTypeError {α : Type} : Outcome α → Bool
  | .err (.TypeError _ _) => true
  | _ => false

/-- Following the claim's words for the output pass of `call_as_function`:
the list of types actually pushed for a vector of declared outputs — a
bound output `Param` pushes its binding, an unbound one is dropped, a
`Function` is pushed with its top-level `Param`s substituted, anything
else is pushed verbatim.  Compared against `callOutputs` from the
source. -/
def specOutsImage (learned : Learned) : List Ty → List Ty
  | [] => []
  | .Param p :: rest =>
      (match learned p with
       | some t => t :: specOutsImage learned rest
       | none => specOutsImage learned rest)
  | .Function tIn tOut :: rest =>
      .Function (substituteLearned learned tIn) (substituteLearned learned tOut)
        :: specOutsImage learned rest
  | t :: rest => t :: specOutsImage learned rest

/-- Whether a factor is a ground literal. -/
def isGroundLit : Factor → Bool
  | .Integer _ _ => true
  | .Boolean _ _ => true
  | .String _ _ => true
  | _ => false

/-- The ground type of a literal factor (the non-literal default is never
used under `isGroundLit`). -/
def litTy : Factor → Ty
  | .Integer _ _ => .Int
  | .Boolean _ _ => .Bool
  | .String _ _ => .String
  | _ => .Int

mutual

/-- The error-free fragment of claim C10: literals, `dup`, `drop`,
`quote`, and quotations of such terms. -/
def safeFactor : Factor → Bool
  | .Dup _ => true
  | .Drop _ => true
  | .Quote _ => true
  | .Integer _ _ => true
  | .Boolean _ _ => true
  | .String _ _ => true
  | .Quotation fs => safeTerm fs
  | _ => false

/-- A term built only from `safeFactor` factors. -/
def safeTerm : List Factor → Bool
  | [] => true
  | f :: fs => safeFactor f && safeTerm fs

end

/-! ## Claim theorems -/

/-- Claim C1: during inference, if `out_stack` is non-empty, `pop` removes
and returns its last element; otherwise it mints a fresh `Param` carrying
the next counter value (incrementing the counter), appends it to
`in_stack`, and returns it. -/
theorem C1_pop_spec (s : St) :
    (s.out_stack = [] →
      pop s = (Ty.Param s.param_count,
        { in_stack := s.in_stack ++ [Ty.Param s.param_count],
          out_stack := [],
          param_count := s.param_count + 1 })) ∧
    (∀ l t, s.out_stack = l ++ [t] →
      pop s = (t, { s with out_stack := l })) := by
  constructor
  · intro h
    simp [pop, h, newParam]
  · intro l t h
    simp [pop, h]

/-- Witness for C1 at concrete states: an empty and a two-element output
stack. -/
theorem C1_pop_spec_witness :
    pop { in_stack := [], out_stack := [], param_count := 0 }
      = (Ty.Param 0, { in_stack := [Ty.Param 0], out_stack := [], param_count := 1 }) ∧
    pop { in_stack := [], out_stack := [Ty.Int, Ty.Bool], param_count := 5 }
      = (Ty.Bool, { in_stack := [], out_stack := [Ty.Int], param_count := 5 }) :=
  ⟨(C1_pop_spec _).1 rfl, (C1_pop_spec _).2 [Ty.Int] Ty.Bool rfl⟩

/-- Claim C4: a quotation's inner term is inferred by a fresh child
interpreter that starts from the fresh state — empty stacks and parameter
counter 0, independent of the parent's state — and the resulting
`Function` type is pushed as a value onto the parent's output stack; the
fresh counter mints `Param(0)` first and `Param(1)` next. -/
theorem C4_quotation_child (fs : List Factor) (s : St) :
    interpretFactor s (.Quotation fs) =
      (match interpret fs with
       | .ok t => .ok (push t s)
       | .err e => .err e
       | .panicked m => .panicked m) ∧
    interpret fs =
      (match interpretTerm initSt fs with
       | .ok s1 => .ok (.Function s1.in_stack s1.out_stack)
       | .err e => .err e
       | .panicked m => .panicked m) ∧
    initSt.param_count = 0 ∧
    (∀ s2 : St, (newParam s2).1 = .Param s2.param_count ∧
      (newParam s2).2.param_count = s2.param_count + 1) ∧
    (newParam initSt).1 = .Param 0 ∧
    (newParam (newParam initSt).2).1 = .Param 1 := by
  refine ⟨?_, rfl, rfl, fun s2 => ⟨rfl, rfl⟩, rfl, rfl⟩
  cases h : interpretTerm initSt fs <;> simp [interpretFactor, interpret, h]

/-- Counterexample to claim C5: for `drop drop` the parameter consumed by
the first underflowing pop is `Param 0`, and the inferred input stack is
`[Param 0, Param 1]` — the first-consumed parameter appears first, not
last. -/
theorem C5_counterexample :
    interpret [.Drop Token.unknown, .Drop Token.unknown]
      = .ok (.Function [.Param 0, .Param 1] []) ∧
    (pop initSt).1 = .Param 0 ∧
    [Ty.Param 0, Ty.Param 1].getLast? = some (.Param 1) ∧
    (Ty.Param 0 : Ty) ≠ .Param 1 := by
  exact ⟨by decide, by decide, by decide, by decide⟩

/-- Claim C5 as amended: `in_stack` lists the discovered inputs in
discovery order — `pop` on an empty output stack appends the fresh
parameter at the end of `in_stack`, so the value read by the *first*
underflowing effect is the *first* element; for `drop drop` the parameter
consumed first appears first in the inputs list. -/
theorem C5_in_stack_discovery_order (ins : List Ty) (pc : Nat) (t1 t2 : Token) :
    (pop { in_stack := ins, out_stack := [], param_count := pc }).2.in_stack
      = ins ++ [.Param pc] ∧
    interpretTerm { in_stack := ins, out_stack := [], param_count := pc }
        [.Drop t1, .Drop t2]
      = .ok { in_stack := ins ++ [.Param pc, .Param (pc + 1)],
              out_stack := [], param_count := pc + 2 } := by
  constructor
  · simp [pop, newParam]
  · simp [interpretTerm, interpretFactor, pop, newParam]

/-- Claim C6: `call_as_function` on a ground type does not return a typing
error — it panics with "Expected function" (evaluated here on the term
`1 call` and on `Type::Int` directly). -/
theorem C6_call_on_ground_panics :
    interpret [.Integer (.Integer 1) Token.unknown, .Call Token.unknown]
      = .panicked "Expected function" ∧
    callAsFunction Ty.Int initSt = .panicked "Expected function" ∧
    (interpret [.Integer (.Integer 1) Token.unknown, .Call Token.unknown]).isTypeError
      = false := by
  exact ⟨by decide, by decide, by decide⟩

/-- Claim C2: applying `call_as_function` to `Function(t_in, t_out)` runs
the input pass on `t_in` in reverse order (the last declared input is
matched first), each expected input being matched against a freshly popped
actual; an expected `Param p` unconditionally records `learned[p] :=
actual`, overwriting earlier bindings and leaving other keys unchanged; a
non-`Param` expected input must be structurally equal to the actual,
otherwise the call returns `TypeError "Expected X but got Y"` (in the
derived `Debug` rendering); structural equality coincides with equality. -/
theorem C2_call_inputs_spec :
    (∀ tIn tOut s, callAsFunction (.Function tIn tOut) s =
      (match callInputs tIn.reverse emptyLearned s with
       | .ok (learned, s1) => .ok (callOutputs learned tOut s1)
       | .err e => .err e
       | .panicked m => .panicked m)) ∧
    (∀ tIn p tOut s, callAsFunction (.Function (tIn ++ [.Param p]) tOut) s =
      (match callInputs tIn.reverse (lrnInsert emptyLearned p (pop s).1) (pop s).2 with
       | .ok (learned, s1) => .ok (callOutputs learned tOut s1)
       | .err e => .err e
       | .panicked m => .panicked m)) ∧
    (∀ rev p learned s,
      callInputs (.Param p :: rev) learned s
        = callInputs rev (lrnInsert learned p (pop s).1) (pop s).2) ∧
    (∀ learned p t, lrnInsert learned p t p = some t) ∧
    (∀ learned p t q, q ≠ p → lrnInsert learned p t q = learned q) ∧
    (∀ rev te learned s, tyIsParam te = false → te = (pop s).1 →
      callInputs (te :: rev) learned s = callInputs rev learned (pop s).2) ∧
    (∀ rev te learned s, tyIsParam te = false → te ≠ (pop s).1 →
      callInputs (te :: rev) learned s
        = .err (.TypeError ("Expected " ++ fmtTy te ++ " but got " ++ fmtTy (pop s).1)
            Token.unknown)) ∧
    (∀ a b, tyBeq a b = true ↔ a = b) := by
  refine ⟨fun tIn tOut s => rfl, ?_, fun rev p learned s => rfl, fun learned p t => ?_,
    fun learned p t q hq => ?_, ?_, ?_, tyBeq_iff⟩
  · intro tIn p tOut s
    simp only [callAsFunction, List.reverse_append, List.reverse_cons,
      List.reverse_nil, List.nil_append, List.singleton_append, callInputs]
  · simp [lrnInsert]
  · simp [lrnInsert, hq]
  · intro rev te learned s hp he
    have hbeq : tyBeq te (pop s).1 = true := (tyBeq_iff _ _).mpr he
    cases te <;> simp [tyIsParam] at hp <;> simp [callInputs, hbeq]
  · intro rev te learned s hp he
    have hbeq : tyBeq te (pop s).1 = false := by
      cases hb : tyBeq te (pop s).1
      · rfl
      · exact absurd ((tyBeq_iff _ _).mp hb) he
    cases te <;> simp [tyIsParam] at hp <;> simp [callInputs, hbeq]

/-- Witness for C2 at concrete inputs: the overwrite-preserving map, a
matching non-`Param` expected input, and a mismatching one producing the
formatted error. -/
theorem C2_call_inputs_spec_witness :
    ((1 : Nat) ≠ 0 ∧ lrnInsert emptyLearned 0 Ty.Int 1 = none) ∧
    (tyIsParam Ty.Int = false ∧
      Ty.Int = (pop { in_stack := [], out_stack := [Ty.Int], param_count := 0 }).1 ∧
      callInputs [Ty.Int] emptyLearned { in_stack := [], out_stack := [Ty.Int], param_count := 0 }
        = .ok (emptyLearned, { in_stack := [], out_stack := [], param_count := 0 })) ∧
    (tyIsParam Ty.Bool = false ∧
      Ty.Bool ≠ (pop { in_stack := [], out_stack := [Ty.Int], param_count := 0 }).1 ∧
      callInputs [Ty.Bool] emptyLearned { in_stack := [], out_stack := [Ty.Int], param_count := 0 }
        = .err (.TypeError
            ("Expected " ++ fmtTy Ty.Bool ++ " but got "
              ++ fmtTy (pop { in_stack := [], out_stack := [Ty.Int], param_count := 0 }).1)
            Token.unknown) ∧
      "Expected " ++ fmtTy Ty.Bool ++ " but got "
          ++ fmtTy (pop { in_stack := [], out_stack := [Ty.Int], param_count := 0 }).1
        = "Expected Bool but got Int") :=
  ⟨⟨by decide,
    (C2_call_inputs_spec.2.2.2.2.1 emptyLearned 0 Ty.Int 1 (by decide)).trans rfl⟩,
   ⟨by decide, rfl,
    (C2_call_inputs_spec.2.2.2.2.2.1 [] Ty.Int emptyLearned
      { in_stack := [], out_stack := [Ty.Int], param_count := 0 } (by decide) rfl).trans rfl⟩,
   ⟨by decide, by decide,
    C2_call_inputs_spec.2.2.2.2.2.2.1 [] Ty.Bool emptyLearned
      { in_stack := [], out_stack := [Ty.Int], param_count := 0 } (by decide) (by decide),
    by decide⟩⟩

/-- Claim C3: the output pass of `call_as_function` pushes, in forward
order, exactly the image of the declared outputs — a bound output
`Param p` pushes `learned[p]`, an unbound one pushes nothing, a
`Function(ti, to)` is pushed with every top-level `Param` of `ti` and `to`
substituted through `learned` (unbound ones dropping that element), and
any other output is pushed verbatim. -/
theorem C3_call_outputs_spec :
    (∀ learned outs s,
      callOutputs learned outs s
        = { s with out_stack := s.out_stack ++ specOutsImage learned outs }) ∧
    (∀ learned p rest t, learned p = some t →
      specOutsImage learned (.Param p :: rest) = t :: specOutsImage learned rest) ∧
    (∀ learned p rest, learned p = none →
      specOutsImage learned (.Param p :: rest) = specOutsImage learned rest) ∧
    (∀ learned tins touts rest,
      specOutsImage learned (.Function tins touts :: rest)
        = .Function (substituteLearned learned tins) (substituteLearned learned touts)
            :: specOutsImage learned rest) ∧
    (∀ learned t rest, tyIsParam t = false → tyIsFunction t = false →
      specOutsImage learned (t :: rest) = t :: specOutsImage learned rest) ∧
    (∀ learned p rest t, learned p = some t →
      substituteLearned learned (.Param p :: rest) = t :: substituteLearned learned rest) ∧
    (∀ learned p rest, learned p = none →
      substituteLearned learned (.Param p :: rest) = substituteLearned learned rest) ∧
    (∀ learned t rest, tyIsParam t = false →
      substituteLearned learned (t :: rest) = t :: substituteLearned learned rest) := by
  refine ⟨?_, ?_, ?_, fun learned tins touts rest => rfl, ?_, ?_, ?_, ?_⟩
  · intro learned outs
    induction outs with
    | nil => intro s; simp [callOutputs, specOutsImage]
    | cons t rest ih =>
        intro s
        cases t with
        | Param p =>
            cases hl : learned p <;>
              simp [callOutputs, specOutsImage, hl, ih, push, List.append_assoc]
        | Function tins touts =>
            simp [callOutputs, specOutsImage, ih, push, List.append_assoc]
        | Int => simp [callOutputs, specOutsImage, ih, push, List.append_assoc]
        | Bool => simp [callOutputs, specOutsImage, ih, push, List.append_assoc]
        | String => simp [callOutputs, specOutsImage, ih, push, List.append_assoc]
  · intro learned p rest t hl; simp [specOutsImage, hl]
  · intro learned p rest hl; simp [specOutsImage, hl]
  · intro learned t rest hp hf
    cases t <;> simp [tyIsParam, tyIsFunction] at hp hf <;> simp [specOutsImage]
  · intro learned p rest t hl; simp [substituteLearned, hl]
  · intro learned p rest hl; simp [substituteLearned, hl]
  · intro learned t rest hp
    cases t <;> simp [tyIsParam] at hp <;> simp [substituteLearned]

/-- Witness for C3 at a concrete learned map binding only parameter 0. -/
theorem C3_call_outputs_spec_witness :
    (lrnInsert emptyLearned 0 Ty.Int) 0 = some Ty.Int ∧
    (lrnInsert emptyLearned 0 Ty.Int) 1 = none ∧
    specOutsImage (lrnInsert emptyLearned 0 Ty.Int) [Ty.Param 0] = [Ty.Int] ∧
    specOutsImage (lrnInsert emptyLearned 0 Ty.Int) [Ty.Param 1] = [] ∧
    specOutsImage (lrnInsert emptyLearned 0 Ty.Int) [Ty.Bool] = [Ty.Bool] ∧
    substituteLearned (lrnInsert emptyLearned 0 Ty.Int) [Ty.Param 0, Ty.Bool, Ty.Param 1]
      = [Ty.Int, Ty.Bool] ∧
    callOutputs (lrnInsert emptyLearned 0 Ty.Int)
        [Ty.Param 0, Ty.Function [Ty.Param 0] [Ty.Param 1], Ty.Bool]
        { in_stack := [], out_stack := [], param_count := 0 }
      = { in_stack := [],
          out_stack := [Ty.Int, Ty.Function [Ty.Int] [], Ty.Bool],
          param_count := 0 } :=
  ⟨rfl, rfl,
   (C3_call_outputs_spec.2.1 _ 0 [] Ty.Int rfl).trans rfl,
   C3_call_outputs_spec.2.2.1 _ 1 [] rfl,
   (C3_call_outputs_spec.2.2.2.2.1 _ Ty.Bool [] (by decide) (by decide)).trans rfl,
   (C3_call_outputs_spec.2.2.2.2.2.1 _ 0 [Ty.Bool, Ty.Param 1] Ty.Int rfl).trans rfl,
   (C3_call_outputs_spec.1 _ _ _).trans (by decide)⟩

/-- Splitting lemma for the `check_term` loop: once a leading segment has
been checked successfully, checking the whole list continues from the
segment's final stacks and counter. -/
theorem checkTermGo_append :
    ∀ (pre : List Factor) (env : String → Option Ty) (pc : Nat) (inS outS : List Ty)
      (rest : List Factor) (a b : List Ty) (pc' : Nat),
      checkTermGo env pc inS outS pre = .ok (.Function a b, pc') →
      checkTermGo env pc inS outS (pre ++ rest) = checkTermGo env pc' a b rest := by
  intro pre
  induction pre with
  | nil =>
      intro env pc inS outS rest a b pc' h
      simp only [checkTermGo] at h
      simp only [Outcome.ok.injEq, Prod.mk.injEq, Ty.Function.injEq] at h
      obtain ⟨⟨ha, hb⟩, hpc⟩ := h
      subst ha; subst hb; subst hpc
      simp
  | cons f fs ih =>
      intro env pc inS outS rest a b pc' h
      simp only [List.cons_append, checkTermGo] at h ⊢
      cases hf : checkFactor env pc f with
      | ok tp =>
          obtain ⟨t, pc1⟩ := tp
          rw [hf] at h
          cases t <;> exact ih _ _ _ _ _ _ _ _ h
      | err e => rw [hf] at h; exact Outcome.noConfusion h
      | panicked m => rw [hf] at h; exact Outcome.noConfusion h

/-- An unbound identifier reached after a successfully checked leading
segment makes `check_term` fail with `TypeError` carrying that
identifier's token, regardless of what follows. -/
theorem checkTerm_unknown_aux
    (env : String → Option Ty) (pc : Nat) (pre : List Factor) (x : String) (tok : Token)
    (post : List Factor) (a b : List Ty) (pc' : Nat)
    (hx : env x = none)
    (h : checkTerm env pc pre = .ok (.Function a b, pc')) :
    checkTerm env pc (pre ++ .Identifier x tok :: post)
      = .err (.TypeError ("Unknown identifier " ++ x) tok) := by
  unfold checkTerm at h ⊢
  rw [checkTermGo_append pre env pc [] [] (.Identifier x tok :: post) a b pc' h]
  simp [checkTermGo, checkFactor, hx]

/-- Claim C7 as amended: in the `TypeChecker`, an identifier unbound in
the environment makes checking fail with `TypeError` carrying that
identifier's token *provided checking reaches it*: every factor before it
(at top level, and inside the enclosing quotation) checks without error or
abort and the identifier is the first failure.  The `AbstractInterpreter`
never looks identifiers up at all (see the counterexample: it aborts on
every identifier), so the property holds of the `TypeChecker` alone. -/
theorem C7_unknown_identifier :
    (∀ (env : String → Option Ty) (pc : Nat) (pre : List Factor) (x : String)
      (tok : Token) (post : List Factor) (a b : List Ty) (pc' : Nat),
      env x = none →
      checkTerm env pc pre = .ok (.Function a b, pc') →
      checkTerm env pc (pre ++ .Identifier x tok :: post)
        = .err (.TypeError ("Unknown identifier " ++ x) tok)) ∧
    (∀ (env : String → Option Ty) (pc : Nat) (pre qpre : List Factor) (x : String)
      (tok : Token) (qpost post : List Factor) (a b : List Ty) (pc' : Nat)
      (c d : List Ty) (pc2 : Nat),
      env x = none →
      checkTerm env pc pre = .ok (.Function a b, pc') →
      checkTerm env pc' qpre = .ok (.Function c d, pc2) →
      checkTerm env pc (pre ++ .Quotation (qpre ++ .Identifier x tok :: qpost) :: post)
        = .err (.TypeError ("Unknown identifier " ++ x) tok)) := by
  constructor
  · exact fun env pc pre x tok post a b pc' hx h =>
      checkTerm_unknown_aux env pc pre x tok post a b pc' hx h
  · intro env pc pre qpre x tok qpost post a b pc' c d pc2 hx h hq
    have hinner := checkTerm_unknown_aux env pc' qpre x tok qpost c d pc2 hx hq
    unfold checkTerm at h hinner ⊢
    rw [checkTermGo_append pre env pc [] [] (.Quotation (qpre ++ .Identifier x tok :: qpost) :: post) a b pc' h]
    simp only [checkTermGo, checkFactor, hinner]

/-- Witness for C7 at concrete inputs: the unbound identifier `foo` after
the literal `1` at top level, and alone inside a quotation, under the
builtin environment. -/
theorem C7_unknown_identifier_witness :
    defaultEnv "foo" = none ∧
    checkTerm defaultEnv 0 [.Integer (.Integer 1) Token.unknown]
      = .ok (.Function [] [.Int], 0) ∧
    checkTerm defaultEnv 0
        [.Integer (.Integer 1) Token.unknown, .Identifier "foo" ⟨"foo", 1, 3⟩]
      = .err (.TypeError "Unknown identifier foo" ⟨"foo", 1, 3⟩) ∧
    checkTerm defaultEnv 0 [.Quotation [.Identifier "foo" ⟨"foo", 1, 2⟩]]
      = .err (.TypeError "Unknown identifier foo" ⟨"foo", 1, 2⟩) :=
  ⟨rfl, by decide,
   (C7_unknown_identifier.1 defaultEnv 0 [.Integer (.Integer 1) Token.unknown] "foo"
      ⟨"foo", 1, 3⟩ [] [] [.Int] 0 rfl (by decide)).trans (by decide),
   (C7_unknown_identifier.2 defaultEnv 0 [] [] "foo" ⟨"foo", 1, 2⟩ [] [] [] [] 0 [] [] 0
      rfl (by decide) (by decide)).trans (by decide)⟩

/-- Counterexample to claim C7 as stated: inference does not always fail
with a `TypeError` carrying the identifier's token — the
`AbstractInterpreter` aborts ("not implemented") on any identifier, and
the `TypeChecker` aborts on a term whose earlier factor is `call`, never
reaching the unbound identifier. -/
theorem C7_counterexample :
    interpret [.Identifier "a" ⟨"a", 1, 1⟩] = .panicked "not implemented" ∧
    (interpret [.Identifier "a" ⟨"a", 1, 1⟩]).isTypeError = false ∧
    checkTerm defaultEnv 0 [.Call ⟨"call", 1, 1⟩, .Identifier "a" ⟨"a", 1, 6⟩]
      = .panicked "not implemented" ∧
    (checkTerm defaultEnv 0 [.Call ⟨"call", 1, 1⟩, .Identifier "a" ⟨"a", 1, 6⟩]).isTypeError
      = false := by
  exact ⟨by decide, by decide, by decide, by decide⟩

/-- Processing a run of ground literals appends their ground types to the
output stack and touches nothing else. -/
theorem interpretTerm_lits :
    ∀ (fs : List Factor) (ins outs : List Ty) (pc : Nat),
      fs.all isGroundLit = true →
      interpretTerm { in_stack := ins, out_stack := outs, param_count := pc } fs
        = .ok { in_stack := ins, out_stack := outs ++ fs.map litTy, param_count := pc } := by
  intro fs
  induction fs with
  | nil => intro ins outs pc h; simp [interpretTerm]
  | cons f fs ih =>
      intro ins outs pc h
      simp only [List.all_cons, Bool.and_eq_true] at h
      obtain ⟨h1, h2⟩ := h
      cases f <;> simp [isGroundLit] at h1 <;>
        simp [interpretTerm, interpretFactor, push, litTy, ih _ _ _ h2, List.append_assoc]

/-- Claim C8: a term consisting only of ground literals infers to
`Function([], outputs)` with the literals' ground types in source order;
in particular the empty term yields `Function([], [])`. -/
theorem C8_ground_literals (fs : List Factor) (h : fs.all isGroundLit = true) :
    interpret fs = .ok (.Function [] (fs.map litTy)) := by
  unfold interpret initSt
  rw [interpretTerm_lits fs [] [] 0 h]
  rfl

/-- Witness for C8: the empty term and a three-literal term. -/
theorem C8_ground_literals_witness :
    ([] : List Factor).all isGroundLit = true ∧
    interpret [] = .ok (.Function [] []) ∧
    [Factor.Integer (.Integer 1) Token.unknown, .Boolean (.Boolean true) Token.unknown,
      .String (.String "hi") Token.unknown].all isGroundLit = true ∧
    interpret [Factor.Integer (.Integer 1) Token.unknown, .Boolean (.Boolean true) Token.unknown,
      .String (.String "hi") Token.unknown] = .ok (.Function [] [.Int, .Bool, .String]) :=
  ⟨rfl, C8_ground_literals [] rfl, rfl, (C8_ground_literals _ (by decide)).trans rfl⟩

mutual

/-- Any factor of the C10 fragment interprets without error from any
state. -/
theorem safeFactor_ok : ∀ (f : Factor) (s : St), safeFactor f = true →
    ∃ s1, interpretFactor s f = .ok s1
  | .Dup _, s, _ => ⟨_, rfl⟩
  | .Drop _, s, _ => ⟨_, rfl⟩
  | .Quote _, s, _ => ⟨_, rfl⟩
  | .Integer _ _, s, _ => ⟨_, rfl⟩
  | .Boolean _ _, s, _ => ⟨_, rfl⟩
  | .String _ _, s, _ => ⟨_, rfl⟩
  | .Call _, s, h => by simp [safeFactor] at h
  | .Cat _, s, h => by simp [safeFactor] at h
  | .Swap _, s, h => by simp [safeFactor] at h
  | .Ifte _, s, h => by simp [safeFactor] at h
  | .Identifier _ _, s, h => by simp [safeFactor] at h
  | .Quotation fs, s, h => by
      obtain ⟨s2, hs2⟩ := safeTerm_ok fs initSt h
      exact ⟨push (.Function s2.in_stack s2.out_stack) s, by simp [interpretFactor, hs2]⟩

/-- Any term of the C10 fragment interprets without error from any
state. -/
theorem safeTerm_ok : ∀ (fs : List Factor) (s : St), safeTerm fs = true →
    ∃ s1, interpretTerm s fs = .ok s1
  | [], s, _ => ⟨s, rfl⟩
  | f :: fs, s, h => by
      simp only [safeTerm, Bool.and_eq_true] at h
      obtain ⟨s1, h1⟩ := safeFactor_ok f s h.1
      obtain ⟨s2, h2⟩ := safeTerm_ok fs s1 h.2
      exact ⟨s2, by simp [interpretTerm, h1, h2]⟩

end

/-- Claim C10: on the fragment of literals, `dup`, `drop`, `quote`, and
quotations of such terms, `interpret` always returns `Ok` with a
`Function` type. -/
theorem C10_safe_fragment (fs : List Factor) (h : safeTerm fs = true) :
    ∃ tin tout, interpret fs = .ok (.Function tin tout) := by
  obtain ⟨s1, h1⟩ := safeTerm_ok fs initSt h
  exact ⟨s1.in_stack, s1.out_stack, by simp [interpret, h1]⟩

/-- Witness for C10 on a concrete term of the fragment. -/
theorem C10_safe_fragment_witness :
    safeTerm [Factor.Integer (.Integer 1) Token.unknown, .Dup Token.unknown,
      .Quotation [.Boolean (.Boolean true) Token.unknown, .Quote Token.unknown],
      .Drop Token.unknown] = true ∧
    ∃ tin tout,
      interpret [Factor.Integer (.Integer 1) Token.unknown, .Dup Token.unknown,
        .Quotation [.Boolean (.Boolean true) Token.unknown, .Quote Token.unknown],
        .Drop Token.unknown] = .ok (.Function tin tout) :=
  ⟨rfl, C10_safe_fragment _ rfl⟩

/-- Claim C9: the scanner does not always record the column of a token's
first character — a token terminated by end of input records the running
column (one past its last character) instead of its starting column, and
a punctuation character fails to advance the column for later tokens.
`scan "a"` yields column 2 (the first character is at column 1);
`scan "(ab"` yields column 3 for `ab` (its first character is at column
2); mid-line flushes such as `ab` in `"ab cd"` are correct, while the
EOF-terminated `cd` (columns 4-5) records 6. -/
theorem C9_scan_eof_column :
    scan "a" = .ok [{ value := "a", line := 1, col := 2 }] ∧
    scan "(ab" = .ok [{ value := "(", line := 1, col := 1 },
                      { value := "ab", line := 1, col := 3 }] ∧
    scan "ab cd" = .ok [{ value := "ab", line := 1, col := 1 },
                        { value := "cd", line := 1, col := 6 }] := by
  exact ⟨by decide, by decide, by decide⟩

end Chara
